import Mathlib

/-!
# certcache: the Functional and Firestore implementations of `autocert.Cache`

A shallow embedding of `functional.go` and `firestore.go`.

* Go values of type `[]byte` are lists of bytes, the nil slice being the empty list.
* Go strings used as names (keys, collection names, paths, log lines) are Lean strings.  The one
  string that carries arbitrary bytes, the field `format.Data`, is a `GoString`: a Go string is a
  read-only sequence of bytes, and the conversions `string(data)` and `[]byte(s)` keep every byte.
* A Go result of type `error` is an `Option GoError`, `none` being `nil`; a Go result
  `([]byte, error)` is a pair.
* Code with effects is a function from the state before the call to the result and the state
  after it.
* The Firestore client library is not part of the repository.  A `Client` stands for it; the
  methods of firestore.go are defined over any `Client`.  `mapClient` is the client of a store that
  is a map, with the checks the library and the service make before the store is looked at.
-/

namespace certcache

/-! ## Go values -/

/-- The Go type `byte`. -/
abbrev Byte := UInt8

/-- A Go string holding arbitrary bytes. -/
structure GoString where
  bytes : List Byte
  deriving DecidableEq, Repr

/-- The Go conversion `string(data)` of a byte slice. -/
def GoString.ofBytes (data : List Byte) : GoString := ⟨data⟩

/-- The Go conversion `[]byte(s)` of a string. -/
def GoString.toBytes (s : GoString) : List Byte := s.bytes

/-- The non-nil values of `ctx.Err()`: `context.Canceled` and `context.DeadlineExceeded`. -/
inductive CtxErr where
  | Canceled
  | DeadlineExceeded
  deriving DecidableEq, Repr

/-- A `context.Context`: a name telling context values apart, and what `ctx.Err()` returns. -/
structure Context where
  name : String
  err : Option CtxErr
  deriving DecidableEq, Repr

/-- The context made by `context.Background()`: it is never cancelled and has no deadline. -/
def Context.Background : Context := ⟨"context.Background", none⟩

/-- The status codes of `google.golang.org/grpc/codes`. -/
inductive Code where
  | OK
  | Canceled
  | Unknown
  | InvalidArgument
  | DeadlineExceeded
  | NotFound
  | AlreadyExists
  | PermissionDenied
  | ResourceExhausted
  | FailedPrecondition
  | Aborted
  | OutOfRange
  | Unimplemented
  | Internal
  | Unavailable
  | DataLoss
  | Unauthenticated
  deriving DecidableEq, Repr

/-- The name `codes.Code.String` prints. -/
def Code.String : Code → String
  | .OK => "OK"
  | .Canceled => "Canceled"
  | .Unknown => "Unknown"
  | .InvalidArgument => "InvalidArgument"
  | .DeadlineExceeded => "DeadlineExceeded"
  | .NotFound => "NotFound"
  | .AlreadyExists => "AlreadyExists"
  | .PermissionDenied => "PermissionDenied"
  | .ResourceExhausted => "ResourceExhausted"
  | .FailedPrecondition => "FailedPrecondition"
  | .Aborted => "Aborted"
  | .OutOfRange => "OutOfRange"
  | .Unimplemented => "Unimplemented"
  | .Internal => "Internal"
  | .Unavailable => "Unavailable"
  | .DataLoss => "DataLoss"
  | .Unauthenticated => "Unauthenticated"

/-- The non-nil values of the Go type `error` that reach this package. -/
inductive GoError where
  /-- The sentinel `autocert.ErrCacheMiss`. -/
  | ErrCacheMiss
  /-- An error carrying a gRPC status: a code and a message. -/
  | status (code : Code) (msg : String)
  /-- The errors `context.Canceled` and `context.DeadlineExceeded`. -/
  | ctx (e : CtxErr)
  /-- Any other error, known by its message only. -/
  | other (msg : String)
  deriving DecidableEq, Repr

/-- The Go type `error`: `none` is `nil`. -/
abbrev error := Option GoError

/-- The method `Error()` of an error: the text `%s` prints. -/
def GoError.Error : GoError → String
  | .ErrCacheMiss => "acme/autocert: certificate cache miss"
  | .status c msg => "rpc error: code = " ++ c.String ++ " desc = " ++ msg
  | .ctx .Canceled => "context canceled"
  | .ctx .DeadlineExceeded => "context deadline exceeded"
  | .other msg => msg

/-- The function `grpc.Code` on a non-nil error: the code of a status error, and `codes.Unknown`
for an error that carries no status. -/
def grpcCode : GoError → Code
  | .status c _ => c
  | _ => .Unknown

/-- Whether an error reports a cancelled or expired context: `context.Canceled`,
`context.DeadlineExceeded`, or a status with code `Canceled` or `DeadlineExceeded`. -/
def GoError.isCancellation : GoError → Bool
  | .ctx _ => true
  | .status .Canceled _ => true
  | .status .DeadlineExceeded _ => true
  | _ => false

/-- What `Get` returns: the Go pair `([]byte, error)`. -/
abbrev GetResult := List Byte × error

/-! ## functional.go -/

/-- The struct `Functional`: three functions.  A Go function may act on the world around it, so
each takes the state `ω` of that world and returns the state it leaves. -/
structure Functional (ω : Type) where
  get : Context → String → ω → GetResult × ω
  put : Context → String → ω → error × ω
  del : Context → String → ω → error × ω

/-- The constructor `NewFunctional`. -/
def NewFunctional {ω : Type}
    (get : Context → String → ω → GetResult × ω)
    (put : Context → String → ω → error × ω)
    (del : Context → String → ω → error × ω) : Functional ω :=
  { get := get, put := put, del := del }

/-- The method `(*Functional).Get`. -/
def Functional.Get {ω : Type} (f : Functional ω) (ctx : Context) (key : String) :
    ω → GetResult × ω :=
  f.get ctx key

/-- The method `(*Functional).Put`: `data` is not passed on. -/
def Functional.Put {ω : Type} (f : Functional ω) (ctx : Context) (key : String)
    (_data : List Byte) : ω → error × ω :=
  f.put ctx key

/-- The method `(*Functional).Delete`. -/
def Functional.Delete {ω : Type} (f : Functional ω) (ctx : Context) (key : String) :
    ω → error × ω :=
  f.del ctx key

/-- A call received by one of the three functions of a `Functional`. -/
inductive Call where
  | get (ctx : Context) (key : String)
  | put (ctx : Context) (key : String)
  | del (ctx : Context) (key : String)
  deriving DecidableEq, Repr

/-- A `get` function that records the call it receives and returns `r`. -/
def recordGet (r : GetResult) (ctx : Context) (key : String) (calls : List Call) :
    GetResult × List Call :=
  (r, calls ++ [Call.get ctx key])

/-- A `put` function that records the call it receives and returns `r`. -/
def recordPut (r : error) (ctx : Context) (key : String) (calls : List Call) :
    error × List Call :=
  (r, calls ++ [Call.put ctx key])

/-- A `del` function that records the call it receives and returns `r`. -/
def recordDel (r : error) (ctx : Context) (key : String) (calls : List Call) :
    error × List Call :=
  (r, calls ++ [Call.del ctx key])

/-- The result of a `get` that reports a cache miss: no value and `autocert.ErrCacheMiss`. -/
def cacheMiss : GetResult := ([], some GoError.ErrCacheMiss)

/-! ## The Firestore client library, as far as firestore.go uses it -/

/-- A value of a field of a Firestore document. -/
inductive Value where
  | str (s : GoString)
  | int (n : Int)
  | bool (b : Bool)
  deriving DecidableEq, Repr

/-- A Firestore document: its fields, by name. -/
abbrev Document := List (String × Value)

/-- The value `client.Collection(collection).Doc(ID)`, a `*firestore.DocumentRef`, kept as the
two strings it was made from.  It is nil when `collection` is not the path of a collection. -/
structure DocumentRef where
  collection : String
  ID : String
  deriving DecidableEq, Repr

/-- The path of a document inside its database. -/
def DocumentRef.Path (ref : DocumentRef) : String := ref.collection ++ "/" ++ ref.ID

/-- A `*firestore.DocumentSnapshot` of a document that exists: the fields read. -/
abbrev DocumentSnapshot := Document

/-- The struct `format` of firestore.go: one field, tagged `firestore:"data"`. -/
structure format where
  Data : GoString
  deriving DecidableEq, Repr

/-- The document the client library writes for a `format`: the field named by the struct tag. -/
def format.toDocument (f : format) : Document := [("data", Value.str f.Data)]

/-- The call `docSnapshot.DataTo(&doc)` on a zero `format`: the field `data` of the document fills
`Data` when it holds a string, a field the document lacks leaves `Data` at its zero value, fields
the struct lacks are skipped, and a value of another type is an error. -/
def DataTo (docSnapshot : DocumentSnapshot) : Except GoError format :=
  match docSnapshot.lookup "data" with
  | none => .ok { Data := GoString.ofBytes [] }
  | some (Value.str s) => .ok { Data := s }
  | some (Value.int _) => .error (.other "firestore: cannot set type string to int")
  | some (Value.bool _) => .error (.other "firestore: cannot set type string to bool")

/-- A `*firestore.Client`, as firestore.go uses it: fetching, setting and deleting the document a
reference names, each under a context, each acting on the state `σ` of the service. -/
structure Client (σ : Type) where
  get : DocumentRef → Context → σ → Except GoError DocumentSnapshot × σ
  set : DocumentRef → Context → format → σ → error × σ
  delete : DocumentRef → Context → σ → error × σ

/-- The value `client.Collection(collectionName).Doc(key)`. -/
def Client.Doc {σ : Type} (_client : Client σ) (collectionName key : String) : DocumentRef :=
  { collection := collectionName, ID := key }

/-- The value `option.WithCredentialsFile(credsPath)`. -/
structure ClientOption where
  WithCredentialsFile : String
  deriving DecidableEq, Repr

/-- What the process can observe besides results: the state of the Firestore service behind the
client, and the lines written through the standard logger. -/
structure World (σ : Type) where
  remote : σ
  log : List String

/-- The call `log.Println(line)`. -/
def World.Println {σ : Type} (w : World σ) (line : String) : World σ :=
  { w with log := w.log ++ [line] }

/-! ## firestore.go -/

/-- The struct `Firestore`. -/
structure Firestore (σ : Type) where
  collectionName : String
  ctxt : Context
  client : Client σ

/-- The constant `defaultFirestoreCertCacheCollectionName`. -/
def defaultFirestoreCertCacheCollectionName : String := "certcache"

/-- The constructor `NewFirestoreWithCollection`.  The function `firestore.NewClient` is the
parameter `NewClient`.  `log.Fatalf` ends the process: the result is then `.error` with the line
logged. -/
def NewFirestoreWithCollection {σ : Type}
    (NewClient : Context → String → ClientOption → Except GoError (Client σ))
    (credsPath projectID certsCollectionName : String) : Except String (Firestore σ) :=
  let cntxt := Context.Background
  let creds : ClientOption := ⟨credsPath⟩
  match NewClient cntxt projectID creds with
  | .error err => .error ("[FIRESTORE] failed to initialize firestore client: " ++ err.Error)
  | .ok cl => .ok { ctxt := cntxt, collectionName := certsCollectionName, client := cl }

/-- The constructor `NewFirestore`. -/
def NewFirestore {σ : Type}
    (NewClient : Context → String → ClientOption → Except GoError (Client σ))
    (credsPath projectID : String) : Except String (Firestore σ) :=
  NewFirestoreWithCollection NewClient credsPath projectID defaultFirestoreCertCacheCollectionName

/-- The method `(*Firestore).Get`.  The request is made under `fcc.ctxt`; `ctx` is not used. -/
def Firestore.Get {σ : Type} (fcc : Firestore σ) (_ctx : Context) (key : String)
    (w : World σ) : GetResult × World σ :=
  let w := w.Println ("[firestore-certcache] fetching " ++ key ++ " from firestore")
  match fcc.client.get (fcc.client.Doc fcc.collectionName key) fcc.ctxt w.remote with
  | (.error err, r) =>
    let w := World.Println { w with remote := r }
      ("[firestore-certcache] error fetching " ++ key ++ " from firestore: " ++ err.Error)
    if grpcCode err = Code.NotFound then
      (([], some GoError.ErrCacheMiss), w)
    else
      (([], some err), w)
  | (.ok docSnapshot, r) =>
    let w : World σ := { w with remote := r }
    match DataTo docSnapshot with
    | .error err =>
      let w := w.Println
        ("[firestore-certcache] error reading document snapshot for " ++ key ++ ": " ++ err.Error)
      (([], some err), w)
    | .ok doc =>
      let w := w.Println ("[firestore-certcache] fetched " ++ key ++ " from firestore")
      ((doc.Data.toBytes, none), w)

/-- The method `(*Firestore).Put`.  The request is made under `fcc.ctxt`; `ctx` is not used. -/
def Firestore.Put {σ : Type} (fcc : Firestore σ) (_ctx : Context) (key : String)
    (data : List Byte) (w : World σ) : error × World σ :=
  let w := w.Println ("[firestore-certcache] storing " ++ key ++ " in firestore")
  let newDocRef := fcc.client.Doc fcc.collectionName key
  match fcc.client.set newDocRef fcc.ctxt { Data := GoString.ofBytes data } w.remote with
  | (some err, r) =>
    let w := World.Println { w with remote := r }
      ("[firestore-certcache] failed to store " ++ key ++ " in firestore")
    (some err, w)
  | (none, r) =>
    let w := World.Println { w with remote := r }
      ("[firestore-certcache] successfully stored " ++ key ++ " in firestore")
    (none, w)

/-- The method `(*Firestore).Delete`.  The request is made under `fcc.ctxt`; `ctx` is not used. -/
def Firestore.Delete {σ : Type} (fcc : Firestore σ) (_ctx : Context) (key : String)
    (w : World σ) : error × World σ :=
  match fcc.client.delete (fcc.client.Doc fcc.collectionName key) fcc.ctxt w.remote with
  | (err, r) => (err, { w with remote := r })

/-! ## Clients to run the backend against -/

/-- The state of a document store: the document, if any, under each collection name and
document identifier. -/
abbrev Store := String → String → Option Document

/-- The store holding no document. -/
def Store.empty : Store := fun _ _ => none

/-- The store `s` with the document at `ref` replaced by `d` (`none`: removed). -/
def Store.update (s : Store) (ref : DocumentRef) (d : Option Document) : Store :=
  fun c k => if c = ref.collection ∧ k = ref.ID then d else s c k

/-- Whether `b` is a UTF-8 continuation byte, 0x80 to 0xBF. -/
def isCont (b : Byte) : Bool := 0x80 ≤ b && b ≤ 0xBF

/-- Whether `b1` may follow the first byte `b0` of a three-byte UTF-8 sequence. -/
def second3 (b0 b1 : Byte) : Bool :=
  if b0 = 0xE0 then 0xA0 ≤ b1 && b1 ≤ 0xBF
  else if b0 = 0xED then 0x80 ≤ b1 && b1 ≤ 0x9F
  else isCont b1

/-- Whether `b1` may follow the first byte `b0` of a four-byte UTF-8 sequence. -/
def second4 (b0 b1 : Byte) : Bool :=
  if b0 = 0xF0 then 0x90 ≤ b1 && b1 ≤ 0xBF
  else if b0 = 0xF4 then 0x80 ≤ b1 && b1 ≤ 0x8F
  else isCont b1

/-- The Go function `utf8.Valid`: whether the bytes are a sequence of well-formed UTF-8
encodings, with no overlong form, no surrogate and nothing above U+10FFFF. -/
def validUTF8 : List Byte → Bool
  | [] => true
  | b0 :: rest =>
    if b0 < 0x80 then validUTF8 rest
    else
      match rest with
      | [] => false
      | b1 :: rest1 =>
        if 0xC2 ≤ b0 && b0 ≤ 0xDF then isCont b1 && validUTF8 rest1
        else
          match rest1 with
          | [] => false
          | b2 :: rest2 =>
            if 0xE0 ≤ b0 && b0 ≤ 0xEF then second3 b0 b1 && isCont b2 && validUTF8 rest2
            else
              match rest2 with
              | [] => false
              | b3 :: rest3 =>
                if 0xF0 ≤ b0 && b0 ≤ 0xF4 then
                  second4 b0 b1 && isCont b2 && isCont b3 && validUTF8 rest3
                else false

/-- The Go call `strings.Split(path, "/")`, on the characters of `path`. -/
def splitIDs : List Char → List (List Char)
  | [] => [[]]
  | c :: cs =>
    if c = '/' then [] :: splitIDs cs
    else
      match splitIDs cs with
      | [] => [[c]]
      | id :: ids => (c :: id) :: ids

/-- Whether `client.Collection(path)` is a collection: `path` is an odd number of identifiers
separated by slashes, none of them empty.  Otherwise `client.Collection(path)` is nil, and so is
every `client.Collection(path).Doc(key)`. -/
def validCollectionPath (path : String) : Bool :=
  (splitIDs path.toList).length % 2 = 1 && (splitIDs path.toList).all (fun id => !id.isEmpty)

/-- The error `errNilDocRef` a method of a nil `*firestore.DocumentRef` returns. -/
def errNilDocRef : GoError := .other "firestore: nil DocumentRef"

/-- The error of a write whose string field does not marshal: it is not valid UTF-8. -/
def errInvalidUTF8 : GoError :=
  .status .Internal "grpc: error while marshaling: string field contains invalid UTF-8"

/-- What the Firestore service checks of a request by itself, before it looks at the store: the
name of the document, and the value a write carries.  `none`: accepted; `some e`: refused with
`e`. -/
structure Service where
  checkName : DocumentRef → Option GoError
  checkData : format → Option GoError

/-- Whether the Firestore documentation allows `id` as an identifier of a collection or of a
document: not empty, no slash, not "." or "..", not of the form `__.*__`, at most 1500 bytes. -/
def validID (id : List Char) : Bool :=
  !id.isEmpty && !id.contains '/' && id != ['.'] && id != ['.', '.'] &&
    !(4 ≤ id.length && id.take 2 == ['_', '_'] && id.drop (id.length - 2) == ['_', '_']) &&
    (id.map Char.utf8Size).sum ≤ 1500

/-- A service that checks what the Firestore documentation states: every identifier of the name
is allowed, and the string written, counted as its bytes and one more, is within the limit of a
field value, 1048487 bytes.  It refuses anything else with status `InvalidArgument`. -/
def Service.documented : Service where
  checkName ref :=
    if (splitIDs ref.collection.toList).all validID && validID ref.ID.toList then none
    else some (.status .InvalidArgument ("invalid document name \"" ++ ref.Path ++ "\""))
  checkData f :=
    if f.Data.bytes.length + 1 ≤ 1048487 then none
    else some (.status .InvalidArgument "field value is longer than 1048487 bytes")

/-- The Firestore client over a store that is a map from collection and document identifier to
document.  A request for a nil document reference fails with `errNilDocRef`; a write of a string
that is not valid UTF-8 fails with `errInvalidUTF8`; a request the service `svc` refuses fails
with its error; none of these touches the store.  Otherwise: fetching a document that is absent
fails with status `NotFound`; setting replaces the whole document; deleting removes it and
succeeds whether or not it was there.  The context is not looked at here: see `contextAware`. -/
def mapClient (svc : Service) : Client Store where
  get ref _ s :=
    if validCollectionPath ref.collection then
      match svc.checkName ref with
      | some e => (.error e, s)
      | none =>
        match s ref.collection ref.ID with
        | none => (.error (.status .NotFound ("\"" ++ ref.Path ++ "\" not found")), s)
        | some d => (.ok d, s)
    else (.error errNilDocRef, s)
  set ref _ f s :=
    if validCollectionPath ref.collection then
      if validUTF8 f.Data.bytes then
        match svc.checkName ref with
        | some e => (some e, s)
        | none =>
          match svc.checkData f with
          | some e => (some e, s)
          | none => (none, s.update ref (some f.toDocument))
      else (some errInvalidUTF8, s)
    else (some errNilDocRef, s)
  delete ref _ s :=
    if validCollectionPath ref.collection then
      match svc.checkName ref with
      | some e => (some e, s)
      | none => (none, s.update ref none)
    else (some errNilDocRef, s)

/-- A client every request of which fails with `e` and changes nothing. -/
def failingClient (e : GoError) : Client Unit where
  get _ _ s := (.error e, s)
  set _ _ _ s := (some e, s)
  delete _ _ s := (some e, s)

/-- A client that fails with the error of the context it receives exactly when that context is
cancelled or past its deadline, and otherwise behaves as `inner`. -/
def contextAware {σ : Type} (inner : Client σ) : Client σ where
  get ref ctx s :=
    match ctx.err with
    | some e => (.error (.ctx e), s)
    | none => inner.get ref ctx s
  set ref ctx f s :=
    match ctx.err with
    | some e => (some (.ctx e), s)
    | none => inner.set ref ctx f s
  delete ref ctx s :=
    match ctx.err with
    | some e => (some (.ctx e), s)
    | none => inner.delete ref ctx s

/-- A backend over a given client, as the constructors build it: under `context.Background()`. -/
def Firestore.over {σ : Type} (client : Client σ) (collectionName : String) : Firestore σ :=
  { collectionName := collectionName, ctxt := Context.Background, client := client }

/-- A world with the given service state and nothing logged. -/
def World.start {σ : Type} (s : σ) : World σ := { remote := s, log := [] }

/-- A request received by a client. -/
inductive Request where
  | get (ref : DocumentRef) (ctx : Context)
  | set (ref : DocumentRef) (ctx : Context) (data : format)
  | delete (ref : DocumentRef) (ctx : Context)
  deriving DecidableEq, Repr

/-- A client that behaves as `inner` and keeps the list of the requests it received. -/
def recording {σ : Type} (inner : Client σ) : Client (σ × List Request) where
  get ref ctx s := ((inner.get ref ctx s.1).1, (inner.get ref ctx s.1).2, s.2 ++ [Request.get ref ctx])
  set ref ctx f s :=
    ((inner.set ref ctx f s.1).1, (inner.set ref ctx f s.1).2, s.2 ++ [Request.set ref ctx f])
  delete ref ctx s :=
    ((inner.delete ref ctx s.1).1, (inner.delete ref ctx s.1).2, s.2 ++ [Request.delete ref ctx])

/-- A store whose document "example.com" of collection "certcache" holds a number in `data`,
and another field. -/
def Store.malformed : Store :=
  Store.empty.update ⟨"certcache", "example.com"⟩
    (some [("data", Value.int 7), ("owner", Value.bool true)])

/-- A store holding the document "example.com" of the collection "certcache". -/
def Store.one : Store :=
  Store.empty.update ⟨"certcache", "example.com"⟩ (some [("data", Value.str ⟨[1, 2]⟩)])

/-- A context that has been cancelled. -/
def Context.cancelled : Context := ⟨"request", some CtxErr.Canceled⟩

/-- A context past its deadline. -/
def Context.expired : Context := ⟨"request", some CtxErr.DeadlineExceeded⟩

/-! ## Lemmas on the three methods -/

section Lemmas

variable {σ : Type}

theorem Get_of_fetch_error (fcc : Firestore σ) (ctx : Context) (key : String) (w : World σ)
    (e : GoError) (r : σ)
    (hfetch : fcc.client.get ⟨fcc.collectionName, key⟩ fcc.ctxt w.remote = (.error e, r)) :
    fcc.Get ctx key w =
      (if grpcCode e = Code.NotFound then ([], some GoError.ErrCacheMiss) else ([], some e),
        { remote := r
          log := w.log ++ ["[firestore-certcache] fetching " ++ key ++ " from firestore"] ++
            ["[firestore-certcache] error fetching " ++ key ++ " from firestore: " ++ e.Error] }) := by
  unfold Firestore.Get
  simp only [World.Println, Client.Doc, hfetch]
  split <;> rfl

theorem Get_of_fetch_ok (fcc : Firestore σ) (ctx : Context) (key : String) (w : World σ)
    (d : DocumentSnapshot) (r : σ)
    (hfetch : fcc.client.get ⟨fcc.collectionName, key⟩ fcc.ctxt w.remote = (.ok d, r)) :
    (fcc.Get ctx key w).1 =
        (match DataTo d with
          | .error e => ([], some e)
          | .ok doc => (doc.Data.toBytes, none)) ∧
      (fcc.Get ctx key w).2.remote = r := by
  unfold Firestore.Get
  simp only [World.Println, Client.Doc, hfetch]
  cases DataTo d <;> exact ⟨rfl, rfl⟩

theorem Put_of_set (fcc : Firestore σ) (ctx : Context) (key : String) (data : List Byte)
    (w : World σ) (e : error) (r : σ)
    (hset : fcc.client.set ⟨fcc.collectionName, key⟩ fcc.ctxt ⟨⟨data⟩⟩ w.remote = (e, r)) :
    (fcc.Put ctx key data w).1 = e ∧ (fcc.Put ctx key data w).2.remote = r := by
  unfold Firestore.Put
  simp only [World.Println, Client.Doc, GoString.ofBytes, hset]
  cases e <;> exact ⟨rfl, rfl⟩

theorem Delete_eq (fcc : Firestore σ) (ctx : Context) (key : String) (w : World σ) :
    fcc.Delete ctx key w =
      ((fcc.client.delete ⟨fcc.collectionName, key⟩ fcc.ctxt w.remote).1,
        { remote := (fcc.client.delete ⟨fcc.collectionName, key⟩ fcc.ctxt w.remote).2
          log := w.log }) := by
  rfl

theorem Store.update_same (s : Store) (n key : String) (d : Option Document) :
    s.update ⟨n, key⟩ d n key = d := by
  simp [Store.update]

/-- The service state `Get` leaves is the one its single fetch leaves. -/
theorem Get_remote (fcc : Firestore σ) (ctx : Context) (key : String) (w : World σ) :
    (fcc.Get ctx key w).2.remote =
      (fcc.client.get ⟨fcc.collectionName, key⟩ fcc.ctxt w.remote).2 := by
  rcases hfetch : fcc.client.get ⟨fcc.collectionName, key⟩ fcc.ctxt w.remote with ⟨res, r⟩
  cases res with
  | error e => rw [Get_of_fetch_error fcc ctx key w e r hfetch]
  | ok d => exact (Get_of_fetch_ok fcc ctx key w d r hfetch).2

/-- The error `Put` returns is the one its single set returns. -/
theorem Put_error (fcc : Firestore σ) (ctx : Context) (key : String) (data : List Byte)
    (w : World σ) :
    (fcc.Put ctx key data w).1 =
      (fcc.client.set ⟨fcc.collectionName, key⟩ fcc.ctxt ⟨⟨data⟩⟩ w.remote).1 :=
  (Put_of_set fcc ctx key data w
    (fcc.client.set ⟨fcc.collectionName, key⟩ fcc.ctxt ⟨⟨data⟩⟩ w.remote).1
    (fcc.client.set ⟨fcc.collectionName, key⟩ fcc.ctxt ⟨⟨data⟩⟩ w.remote).2 rfl).1

/-- The service state `Put` leaves is the one its single set leaves. -/
theorem Put_remote (fcc : Firestore σ) (ctx : Context) (key : String) (data : List Byte)
    (w : World σ) :
    (fcc.Put ctx key data w).2.remote =
      (fcc.client.set ⟨fcc.collectionName, key⟩ fcc.ctxt ⟨⟨data⟩⟩ w.remote).2 :=
  (Put_of_set fcc ctx key data w _ _ rfl).2

/-- A backend built under `context.Background()` never shows a cancelled context to its client:
over a client that looks at its context, `Get` is `Get` over the client underneath. -/
theorem over_contextAware_Get (inner : Client σ) (n : String) (ctx : Context) (key : String)
    (w : World σ) :
    (Firestore.over (contextAware inner) n).Get ctx key w =
      (⟨n, Context.Background, inner⟩ : Firestore σ).Get ctx key w :=
  rfl

/-- The same for `Put`. -/
theorem over_contextAware_Put (inner : Client σ) (n : String) (ctx : Context) (key : String)
    (data : List Byte) (w : World σ) :
    (Firestore.over (contextAware inner) n).Put ctx key data w =
      (⟨n, Context.Background, inner⟩ : Firestore σ).Put ctx key data w :=
  rfl

/-- The same for `Delete`. -/
theorem over_contextAware_Delete (inner : Client σ) (n : String) (ctx : Context) (key : String)
    (w : World σ) :
    (Firestore.over (contextAware inner) n).Delete ctx key w =
      (⟨n, Context.Background, inner⟩ : Firestore σ).Delete ctx key w :=
  rfl

/-- The fetch of the map client for a reference that is not nil and that the service accepts. -/
theorem mapClient_get_valid (svc : Service) (n key : String) (c : Context) (s : Store)
    (hpath : validCollectionPath n = true) (hname : svc.checkName ⟨n, key⟩ = none) :
    (mapClient svc).get ⟨n, key⟩ c s =
      (match s n key with
        | none => (.error (.status .NotFound ("\"" ++ DocumentRef.Path ⟨n, key⟩ ++ "\" not found")), s)
        | some d => (.ok d, s)) := by
  simp only [mapClient, hpath, hname, if_true]

/-- The set of the map client succeeds only when every check passes. -/
theorem mapClient_set_none (svc : Service) (n key : String) (c : Context) (f : format)
    (s : Store) (h : ((mapClient svc).set ⟨n, key⟩ c f s).1 = none) :
    validCollectionPath n = true ∧ validUTF8 f.Data.bytes = true ∧
      svc.checkName ⟨n, key⟩ = none ∧ svc.checkData f = none := by
  simp only [mapClient] at h
  split at h
  · rename_i hpath
    split at h
    · rename_i hutf
      split at h
      · cases h
      · rename_i hname
        split at h
        · cases h
        · rename_i hdata
          exact ⟨hpath, hutf, hname, hdata⟩
    · cases h
  · cases h

/-- The set of the map client when every check passes. -/
theorem mapClient_set_valid (svc : Service) (n key : String) (c : Context) (f : format)
    (s : Store) (hpath : validCollectionPath n = true) (hutf : validUTF8 f.Data.bytes = true)
    (hname : svc.checkName ⟨n, key⟩ = none) (hdata : svc.checkData f = none) :
    (mapClient svc).set ⟨n, key⟩ c f s = (none, s.update ⟨n, key⟩ (some f.toDocument)) := by
  simp only [mapClient, hpath, hutf, hname, hdata, if_true]

/-- The delete of the map client for a reference that is not nil and that the service accepts. -/
theorem mapClient_delete_valid (svc : Service) (n key : String) (c : Context) (s : Store)
    (hpath : validCollectionPath n = true) (hname : svc.checkName ⟨n, key⟩ = none) :
    (mapClient svc).delete ⟨n, key⟩ c s = (none, s.update ⟨n, key⟩ none) := by
  simp only [mapClient, hpath, hname, if_true]

/-- On the map client, `Get` of a key that has no document reports a cache miss. -/
theorem mapClient_Get_absent (svc : Service) (n : String) (c ctx : Context) (key : String)
    (w : World Store) (hpath : validCollectionPath n = true)
    (hname : svc.checkName ⟨n, key⟩ = none) (h : w.remote n key = none) :
    ((⟨n, c, mapClient svc⟩ : Firestore Store).Get ctx key w).1 =
      ([], some GoError.ErrCacheMiss) := by
  have hfetch : (mapClient svc).get ⟨n, key⟩ c w.remote =
      (.error (.status .NotFound ("\"" ++ DocumentRef.Path ⟨n, key⟩ ++ "\" not found")),
        w.remote) := by
    rw [mapClient_get_valid svc n key c w.remote hpath hname, h]
  rw [Get_of_fetch_error ⟨n, c, mapClient svc⟩ ctx key w _ _ hfetch]
  simp [grpcCode]

/-- On the map client, `Get` of a key that has a document decodes that document. -/
theorem mapClient_Get_present (svc : Service) (n : String) (c ctx : Context) (key : String)
    (w : World Store) (d : Document) (hpath : validCollectionPath n = true)
    (hname : svc.checkName ⟨n, key⟩ = none) (h : w.remote n key = some d) :
    ((⟨n, c, mapClient svc⟩ : Firestore Store).Get ctx key w).1 =
      (match DataTo d with
        | .error e => ([], some e)
        | .ok doc => (doc.Data.toBytes, none)) := by
  have hfetch : (mapClient svc).get ⟨n, key⟩ c w.remote = (.ok d, w.remote) := by
    rw [mapClient_get_valid svc n key c w.remote hpath hname, h]
  exact (Get_of_fetch_ok ⟨n, c, mapClient svc⟩ ctx key w d _ hfetch).1

/-- On the map client, `Get` through a nil document reference returns `errNilDocRef`. -/
theorem mapClient_Get_nil (svc : Service) (n : String) (c ctx : Context) (key : String)
    (w : World Store) (hpath : validCollectionPath n = false) :
    ((⟨n, c, mapClient svc⟩ : Firestore Store).Get ctx key w).1 = ([], some errNilDocRef) := by
  have hfetch : (mapClient svc).get ⟨n, key⟩ c w.remote = (.error errNilDocRef, w.remote) := by
    simp [mapClient, hpath]
  rw [Get_of_fetch_error ⟨n, c, mapClient svc⟩ ctx key w _ _ hfetch]
  simp [grpcCode, errNilDocRef]

/-- On the map client, a `Put` that succeeds passed every check and left the one-field document
under the key. -/
theorem mapClient_Put_success (svc : Service) (n : String) (c ctx : Context) (key : String)
    (data : List Byte) (w : World Store)
    (h : ((⟨n, c, mapClient svc⟩ : Firestore Store).Put ctx key data w).1 = none) :
    (validCollectionPath n = true ∧ svc.checkName ⟨n, key⟩ = none) ∧
      ((⟨n, c, mapClient svc⟩ : Firestore Store).Put ctx key data w).2.remote =
        w.remote.update ⟨n, key⟩ (some [("data", Value.str ⟨data⟩)]) := by
  have hset : ((mapClient svc).set ⟨n, key⟩ c ⟨⟨data⟩⟩ w.remote).1 = none := by
    rw [Put_error] at h
    exact h
  obtain ⟨hpath, hutf, hname, hdata⟩ := mapClient_set_none svc n key c _ _ hset
  refine ⟨⟨hpath, hname⟩, ?_⟩
  rw [Put_remote, mapClient_set_valid svc n key c _ _ hpath hutf hname hdata]
  rfl

/-- On the map client, `Put` of a value that is not valid UTF-8 fails with `errInvalidUTF8`
and leaves the store as it was. -/
theorem mapClient_Put_invalid (svc : Service) (n : String) (c ctx : Context) (key : String)
    (data : List Byte) (w : World Store) (hpath : validCollectionPath n = true)
    (hutf : validUTF8 data = false) :
    ((⟨n, c, mapClient svc⟩ : Firestore Store).Put ctx key data w).1 = some errInvalidUTF8 ∧
      ((⟨n, c, mapClient svc⟩ : Firestore Store).Put ctx key data w).2.remote = w.remote := by
  have hset : (mapClient svc).set ⟨n, key⟩ c ⟨⟨data⟩⟩ w.remote =
      (some errInvalidUTF8, w.remote) := by
    simp [mapClient, hpath, hutf]
  exact Put_of_set ⟨n, c, mapClient svc⟩ ctx key data w _ _ hset

/-- On the map client, `Put` succeeds when every check passes. -/
theorem mapClient_Put_valid (svc : Service) (n : String) (c ctx : Context) (key : String)
    (data : List Byte) (w : World Store) (hpath : validCollectionPath n = true)
    (hutf : validUTF8 data = true) (hname : svc.checkName ⟨n, key⟩ = none)
    (hdata : svc.checkData ⟨GoString.ofBytes data⟩ = none) :
    ((⟨n, c, mapClient svc⟩ : Firestore Store).Put ctx key data w).1 = none :=
  (Put_of_set ⟨n, c, mapClient svc⟩ ctx key data w none _
    (mapClient_set_valid svc n key c ⟨⟨data⟩⟩ w.remote hpath hutf hname hdata)).1

/-- On the map client, `Delete` through a reference that is not nil and that the service accepts
succeeds and leaves no document under the key. -/
theorem mapClient_Delete_valid (svc : Service) (n : String) (c ctx : Context) (key : String)
    (w : World Store) (hpath : validCollectionPath n = true)
    (hname : svc.checkName ⟨n, key⟩ = none) :
    ((⟨n, c, mapClient svc⟩ : Firestore Store).Delete ctx key w).1 = none ∧
      ((⟨n, c, mapClient svc⟩ : Firestore Store).Delete ctx key w).2.remote =
        w.remote.update ⟨n, key⟩ none := by
  rw [Delete_eq]
  simp only [mapClient_delete_valid svc n key c w.remote hpath hname, and_self]

/-- On the map client, `Delete` through a nil document reference returns `errNilDocRef`. -/
theorem mapClient_Delete_nil (svc : Service) (n : String) (c ctx : Context) (key : String)
    (w : World Store) (hpath : validCollectionPath n = false) :
    ((⟨n, c, mapClient svc⟩ : Firestore Store).Delete ctx key w).1 = some errNilDocRef := by
  rw [Delete_eq]
  simp [mapClient, hpath]

/-- Over a client that looks at its context, `Get` fails with the error of the stored context
when that one is cancelled, and otherwise does what it does over the client underneath. -/
theorem contextAware_Get (inner : Client σ) (n : String) (c ctx : Context) (key : String)
    (w : World σ) :
    ((⟨n, c, contextAware inner⟩ : Firestore σ).Get ctx key w).1 =
      (match c.err with
        | some e => ([], some (GoError.ctx e))
        | none => ((⟨n, c, inner⟩ : Firestore σ).Get ctx key w).1) := by
  cases hc : c.err with
  | none =>
    simp only [Firestore.Get, contextAware, Client.Doc, hc]
  | some e =>
    have hfetch : (contextAware inner).get ⟨n, key⟩ c w.remote = (.error (.ctx e), w.remote) := by
      simp [contextAware, hc]
    rw [Get_of_fetch_error ⟨n, c, contextAware inner⟩ ctx key w _ _ hfetch]
    simp [grpcCode]

/-- The same for `Put`. -/
theorem contextAware_Put (inner : Client σ) (n : String) (c ctx : Context) (key : String)
    (data : List Byte) (w : World σ) :
    ((⟨n, c, contextAware inner⟩ : Firestore σ).Put ctx key data w).1 =
      (match c.err with
        | some e => some (GoError.ctx e)
        | none => ((⟨n, c, inner⟩ : Firestore σ).Put ctx key data w).1) := by
  cases hc : c.err with
  | none =>
    simp only [Firestore.Put, contextAware, Client.Doc, hc]
  | some e =>
    have hset : (contextAware inner).set ⟨n, key⟩ c ⟨⟨data⟩⟩ w.remote =
        (some (.ctx e), w.remote) := by
      simp [contextAware, hc]
    rw [(Put_of_set ⟨n, c, contextAware inner⟩ ctx key data w _ _ hset).1]

/-- The same for `Delete`. -/
theorem contextAware_Delete (inner : Client σ) (n : String) (c ctx : Context) (key : String)
    (w : World σ) :
    ((⟨n, c, contextAware inner⟩ : Firestore σ).Delete ctx key w).1 =
      (match c.err with
        | some e => some (GoError.ctx e)
        | none => ((⟨n, c, inner⟩ : Firestore σ).Delete ctx key w).1) := by
  cases hc : c.err <;> simp only [Firestore.Delete, contextAware, Client.Doc, hc]

/-- Decoding never fails with a cancellation error. -/
theorem DataTo_not_cancellation (d : DocumentSnapshot) (e : GoError)
    (h : DataTo d = .error e) : e.isCancellation = false := by
  unfold DataTo at h
  split at h
  · cases h
  · cases h
  · cases h; rfl
  · cases h; rfl

/-- The service of the documentation refuses a name with no cancellation error. -/
theorem documented_checkName_not_cancellation (ref : DocumentRef) (e : GoError)
    (h : Service.documented.checkName ref = some e) : e.isCancellation = false := by
  simp only [Service.documented] at h
  split at h
  · cases h
  · cases h; rfl

/-- The service of the documentation refuses a value with no cancellation error. -/
theorem documented_checkData_not_cancellation (f : format) (e : GoError)
    (h : Service.documented.checkData f = some e) : e.isCancellation = false := by
  simp only [Service.documented] at h
  split at h
  · cases h
  · cases h; rfl

/-- On the map client `Get` never fails with a cancellation error. -/
theorem mapClient_Get_not_cancellation (n : String) (c ctx : Context) (key : String)
    (w : World Store) :
    ((⟨n, c, mapClient Service.documented⟩ : Firestore Store).Get ctx key w).1.2.any
      GoError.isCancellation = false := by
  cases hpath : validCollectionPath n with
  | false => rw [mapClient_Get_nil _ n c ctx key w hpath]; rfl
  | true =>
    cases hname : Service.documented.checkName ⟨n, key⟩ with
    | some e =>
      have hfetch : (mapClient Service.documented).get ⟨n, key⟩ c w.remote =
          (.error e, w.remote) := by
        simp only [mapClient, hpath, hname, if_true]
      rw [Get_of_fetch_error ⟨n, c, mapClient Service.documented⟩ ctx key w _ _ hfetch]
      split
      · rfl
      · simpa using documented_checkName_not_cancellation _ e hname
    | none =>
      cases h : w.remote n key with
      | none => rw [mapClient_Get_absent _ n c ctx key w hpath hname h]; rfl
      | some d =>
        rw [mapClient_Get_present _ n c ctx key w d hpath hname h]
        cases hd : DataTo d with
        | error e => simpa using DataTo_not_cancellation d e hd
        | ok doc => rfl

/-- The set of the map client never fails with a cancellation error. -/
theorem mapClient_set_not_cancellation (ref : DocumentRef) (c : Context) (f : format)
    (s : Store) :
    ((mapClient Service.documented).set ref c f s).1.any GoError.isCancellation = false := by
  cases hpath : validCollectionPath ref.collection with
  | false =>
    have hset : (mapClient Service.documented).set ref c f s = (some errNilDocRef, s) := by
      simp [mapClient, hpath]
    rw [hset]; rfl
  | true =>
    cases hutf : validUTF8 f.Data.bytes with
    | false =>
      have hset : (mapClient Service.documented).set ref c f s = (some errInvalidUTF8, s) := by
        simp [mapClient, hpath, hutf]
      rw [hset]; rfl
    | true =>
      cases hname : Service.documented.checkName ref with
      | some e =>
        have hset : (mapClient Service.documented).set ref c f s = (some e, s) := by
          simp only [mapClient, hpath, hutf, hname, if_true]
        rw [hset]
        simpa using documented_checkName_not_cancellation _ e hname
      | none =>
        cases hdata : Service.documented.checkData f with
        | some e =>
          have hset : (mapClient Service.documented).set ref c f s = (some e, s) := by
            simp only [mapClient, hpath, hutf, hname, hdata, if_true]
          rw [hset]
          simpa using documented_checkData_not_cancellation _ e hdata
        | none =>
          rw [mapClient_set_valid _ ref.collection ref.ID c f s hpath hutf hname hdata]
          rfl

/-- On the map client `Put` never fails with a cancellation error. -/
theorem mapClient_Put_not_cancellation (n : String) (c ctx : Context) (key : String)
    (data : List Byte) (w : World Store) :
    ((⟨n, c, mapClient Service.documented⟩ : Firestore Store).Put ctx key data w).1.any
      GoError.isCancellation = false := by
  rw [Put_error]
  exact mapClient_set_not_cancellation ⟨n, key⟩ c ⟨⟨data⟩⟩ w.remote

/-- On the map client `Delete` never fails with a cancellation error. -/
theorem mapClient_Delete_not_cancellation (n : String) (c ctx : Context) (key : String)
    (w : World Store) :
    ((⟨n, c, mapClient Service.documented⟩ : Firestore Store).Delete ctx key w).1.any
      GoError.isCancellation = false := by
  rw [Delete_eq]
  simp only [mapClient]
  split
  · split
    · rename_i e hname
      simpa using documented_checkName_not_cancellation _ e hname
    · rfl
  · rfl

end Lemmas

/-! ## The Functional backend -/

/-- C1: on the backend built by `NewFunctional get put del`, `Get ctx key` is exactly
`get ctx key`, `Put ctx key data` is exactly `put ctx key` and `Delete ctx key` is exactly
`del ctx key`, as results and as effects on the world; with functions that record their calls,
each method leaves one recorded call, to its own function, with the given `ctx` and `key`; and
when `get` always returns the cache-miss error, so does `Get`. -/
theorem Functional_delegates {ω : Type}
    (get : Context → String → ω → GetResult × ω)
    (put del : Context → String → ω → error × ω)
    (ctx : Context) (key : String) (data : List Byte) (w : ω)
    (rg : GetResult) (rp rd : error) (calls : List Call) :
    (NewFunctional get put del).Get ctx key w = get ctx key w ∧
    (NewFunctional get put del).Put ctx key data w = put ctx key w ∧
    (NewFunctional get put del).Delete ctx key w = del ctx key w ∧
    (NewFunctional (recordGet rg) (recordPut rp) (recordDel rd)).Get ctx key calls =
      (rg, calls ++ [Call.get ctx key]) ∧
    (NewFunctional (recordGet rg) (recordPut rp) (recordDel rd)).Put ctx key data calls =
      (rp, calls ++ [Call.put ctx key]) ∧
    (NewFunctional (recordGet rg) (recordPut rp) (recordDel rd)).Delete ctx key calls =
      (rd, calls ++ [Call.del ctx key]) ∧
    ((∀ c k s, (get c k s).1 = ([], some GoError.ErrCacheMiss)) →
      ((NewFunctional get put del).Get ctx key w).1 = ([], some GoError.ErrCacheMiss)) :=
  ⟨rfl, rfl, rfl, rfl, rfl, rfl, fun h => h ctx key w⟩

/-- C1, at a `get` that always misses: `Get` of "example.com" misses. -/
theorem Functional_delegates_witness :
    (∀ (c : Context) (k : String) (s : Unit),
        ((fun _ _ s => (cacheMiss, s) : Context → String → Unit → GetResult × Unit) c k s).1 =
          ([], some GoError.ErrCacheMiss)) ∧
      ((NewFunctional (fun _ _ s => (cacheMiss, s)) (fun _ _ s => (none, s))
          (fun _ _ s => (none, s))).Get Context.Background "example.com" ()).1 =
        ([], some GoError.ErrCacheMiss) :=
  ⟨fun _ _ _ => rfl,
    (Functional_delegates (fun _ _ s => (cacheMiss, s)) (fun _ _ s => (none, s))
      (fun _ _ s => (none, s)) Context.Background "example.com" [] () cacheMiss none none
      []).2.2.2.2.2.2 (fun _ _ _ => rfl)⟩

/-- C9: `Put` of the Functional backend does not hand the value to `put`: for any two values the
call made is the same `put ctx key`, with the same result and the same effect, and a recording
`put` sees the same single call. -/
theorem Functional_Put_ignores_data {ω : Type}
    (get : Context → String → ω → GetResult × ω)
    (put del : Context → String → ω → error × ω)
    (ctx : Context) (key : String) (V1 V2 : List Byte) (w : ω)
    (rg : GetResult) (rp rd : error) (calls : List Call) :
    (NewFunctional get put del).Put ctx key V1 w = (NewFunctional get put del).Put ctx key V2 w ∧
    (NewFunctional get put del).Put ctx key V1 w = put ctx key w ∧
    (NewFunctional get put del).Put ctx key V2 w = put ctx key w ∧
    ((NewFunctional (recordGet rg) (recordPut rp) (recordDel rd)).Put ctx key V1 calls).2 =
      calls ++ [Call.put ctx key] ∧
    ((NewFunctional (recordGet rg) (recordPut rp) (recordDel rd)).Put ctx key V2 calls).2 =
      calls ++ [Call.put ctx key] :=
  ⟨rfl, rfl, rfl, rfl, rfl⟩

/-! ## The Firestore backend on a store that is a map -/

/-- C3, refuted: the backend `NewFirestoreWithCollection` builds for the collection name "" is
asked for a key that has no document: `Get` returns the error "firestore: nil DocumentRef", which
is not `autocert.ErrCacheMiss`. -/
theorem Firestore_Get_absent_counterexample :
    (World.start Store.empty).remote "" "example.com" = none ∧
    NewFirestoreWithCollection (fun _ _ _ => .ok (contextAware (mapClient Service.documented)))
        "creds.json" "project" "" =
      .ok (Firestore.over (contextAware (mapClient Service.documented)) "") ∧
    ((Firestore.over (contextAware (mapClient Service.documented)) "").Get Context.Background
        "example.com" (World.start Store.empty)).1 =
      ([], some (GoError.other "firestore: nil DocumentRef")) ∧
    ((Firestore.over (contextAware (mapClient Service.documented)) "").Get Context.Background
        "example.com" (World.start Store.empty)).1 ≠ ([], some GoError.ErrCacheMiss) := by
  refine ⟨rfl, rfl, rfl, ?_⟩
  decide

/-- C3, amended: on the client of a map store, for a backend whose collection name is the path
of a collection and a key whose document name the service accepts, `Get` of a key that has no
document in the collection returns no value and `autocert.ErrCacheMiss`: an error, so no success,
and no other error.  For a backend whose collection name is not the path of a collection, `Get`
returns the error "firestore: nil DocumentRef". -/
theorem Firestore_Get_absent_is_cacheMiss (svc : Service) (n : String) (ctx : Context)
    (K : String) (w : World Store) :
    (validCollectionPath n = true → svc.checkName ⟨n, K⟩ = none → w.remote n K = none →
      ((Firestore.over (contextAware (mapClient svc)) n).Get ctx K w).1 =
          ([], some GoError.ErrCacheMiss) ∧
        ((Firestore.over (contextAware (mapClient svc)) n).Get ctx K w).1.2 ≠ none ∧
        ∀ e, ((Firestore.over (contextAware (mapClient svc)) n).Get ctx K w).1.2 = some e →
          e = GoError.ErrCacheMiss) ∧
    (validCollectionPath n = false →
      ((Firestore.over (contextAware (mapClient svc)) n).Get ctx K w).1 =
        ([], some errNilDocRef)) := by
  constructor
  · intro hpath hname h
    have h1 : ((Firestore.over (contextAware (mapClient svc)) n).Get ctx K w).1 =
        ([], some GoError.ErrCacheMiss) := by
      rw [over_contextAware_Get]
      exact mapClient_Get_absent svc n _ ctx K w hpath hname h
    refine ⟨h1, ?_, ?_⟩
    · rw [h1]; simp
    · intro e he
      rw [h1] at he
      exact (Option.some.inj he).symm
  · intro hpath
    rw [over_contextAware_Get]
    exact mapClient_Get_nil svc n _ ctx K w hpath

/-- C3, on the store that was never written, for the collections "certcache" and "a/b". -/
theorem Firestore_Get_absent_is_cacheMiss_witness :
    (validCollectionPath "certcache" = true ∧
      Service.documented.checkName ⟨"certcache", "example.com"⟩ = none ∧
      (World.start Store.empty).remote "certcache" "example.com" = none ∧
      ((Firestore.over (contextAware (mapClient Service.documented)) "certcache").Get
        Context.Background "example.com" (World.start Store.empty)).1 =
        ([], some GoError.ErrCacheMiss)) ∧
    (validCollectionPath "a/b" = false ∧
      ((Firestore.over (contextAware (mapClient Service.documented)) "a/b").Get
        Context.Background "example.com" (World.start Store.empty)).1 =
        ([], some errNilDocRef)) :=
  ⟨⟨rfl, rfl, rfl,
      ((Firestore_Get_absent_is_cacheMiss Service.documented "certcache" Context.Background
        "example.com" (World.start Store.empty)).1 rfl rfl rfl).1⟩,
    ⟨rfl, (Firestore_Get_absent_is_cacheMiss Service.documented "a/b" Context.Background
      "example.com" (World.start Store.empty)).2 rfl⟩⟩

/-- C6, refuted: the backend `NewFirestoreWithCollection` builds for the collection name ""
is asked to delete a key: `Delete` returns the error "firestore: nil DocumentRef", and the `Get`
after it returns that error too, not `autocert.ErrCacheMiss`. -/
theorem Firestore_Delete_counterexample :
    NewFirestoreWithCollection (fun _ _ _ => .ok (contextAware (mapClient Service.documented)))
        "creds.json" "project" "" =
      .ok (Firestore.over (contextAware (mapClient Service.documented)) "") ∧
    ((Firestore.over (contextAware (mapClient Service.documented)) "").Delete
        Context.Background "example.com" (World.start Store.empty)).1 =
      some (GoError.other "firestore: nil DocumentRef") ∧
    ((Firestore.over (contextAware (mapClient Service.documented)) "").Get Context.Background
        "example.com"
        ((Firestore.over (contextAware (mapClient Service.documented)) "").Delete
          Context.Background "example.com" (World.start Store.empty)).2).1 =
      ([], some (GoError.other "firestore: nil DocumentRef")) :=
  ⟨rfl, rfl, rfl⟩

/-- C6, amended: `Delete` returns what the delete of its client returns, for every client.  On
the client of a map store, for a backend whose collection name is the path of a collection and a
key whose document name the service accepts, `Delete K` returns no error whether or not `K` has a
document, and a `Get K` after it returns `autocert.ErrCacheMiss`.  For a backend whose collection
name is not the path of a collection, `Delete` returns the error "firestore: nil DocumentRef". -/
theorem Firestore_Delete_idempotent {σ : Type} (fcc : Firestore σ) (v : World σ)
    (svc : Service) (n : String) (ctx1 ctx2 : Context) (K : String) (w : World Store) :
    (fcc.Delete ctx1 K v).1 =
      (fcc.client.delete ⟨fcc.collectionName, K⟩ fcc.ctxt v.remote).1 ∧
    (validCollectionPath n = true → svc.checkName ⟨n, K⟩ = none →
      ((Firestore.over (contextAware (mapClient svc)) n).Delete ctx1 K w).1 = none ∧
        ((Firestore.over (contextAware (mapClient svc)) n).Get ctx2 K
          ((Firestore.over (contextAware (mapClient svc)) n).Delete ctx1 K w).2).1 =
            ([], some GoError.ErrCacheMiss)) ∧
    (validCollectionPath n = false →
      ((Firestore.over (contextAware (mapClient svc)) n).Delete ctx1 K w).1 =
        some errNilDocRef) := by
  refine ⟨rfl, ?_, ?_⟩
  · intro hpath hname
    rw [over_contextAware_Delete, over_contextAware_Get]
    refine ⟨(mapClient_Delete_valid svc n _ ctx1 K w hpath hname).1, ?_⟩
    apply mapClient_Get_absent svc n _ ctx2 K _ hpath hname
    rw [(mapClient_Delete_valid svc n _ ctx1 K w hpath hname).2, Store.update_same]
  · intro hpath
    rw [over_contextAware_Delete]
    exact mapClient_Delete_nil svc n _ ctx1 K w hpath

/-- C6, for a key that has a document and for a key that has none, and for the collection
name "". -/
theorem Firestore_Delete_idempotent_witness :
    (Store.one "certcache" "example.com" = some [("data", Value.str ⟨[1, 2]⟩)] ∧
      ((Firestore.over (contextAware (mapClient Service.documented)) "certcache").Delete
        Context.Background "example.com" (World.start Store.one)).1 = none ∧
      ((Firestore.over (contextAware (mapClient Service.documented)) "certcache").Get
        Context.Background "example.com"
        ((Firestore.over (contextAware (mapClient Service.documented)) "certcache").Delete
          Context.Background "example.com" (World.start Store.one)).2).1 =
        ([], some GoError.ErrCacheMiss)) ∧
    (Store.one "certcache" "example.org" = none ∧
      ((Firestore.over (contextAware (mapClient Service.documented)) "certcache").Delete
        Context.Background "example.org" (World.start Store.one)).1 = none) ∧
    (validCollectionPath "" = false ∧
      ((Firestore.over (contextAware (mapClient Service.documented)) "").Delete
        Context.Background "example.com" (World.start Store.one)).1 = some errNilDocRef) :=
  ⟨⟨rfl,
      (Firestore_Delete_idempotent
        (Firestore.over (failingClient (.status .Unavailable "connection refused")) "certcache")
        (World.start ()) Service.documented "certcache" Context.Background Context.Background
        "example.com" (World.start Store.one)).2.1 rfl rfl⟩,
    ⟨rfl,
      ((Firestore_Delete_idempotent
        (Firestore.over (failingClient (.status .Unavailable "connection refused")) "certcache")
        (World.start ()) Service.documented "certcache" Context.Background Context.Background
        "example.org" (World.start Store.one)).2.1 rfl rfl).1⟩,
    ⟨rfl,
      (Firestore_Delete_idempotent
        (Firestore.over (failingClient (.status .Unavailable "connection refused")) "certcache")
        (World.start ()) Service.documented "" Context.Background Context.Background
        "example.com" (World.start Store.one)).2.2 rfl⟩⟩

/-- C7: on the client of a map store, a `Put K V1` that succeeds, then a `Put K V2` that
succeeds, then `Get K` returns `V2`; the document left under `K` is the single field `data`
holding `V2`, whatever document was there before. -/
theorem Firestore_Put_overwrites (svc : Service) (n : String) (ctx1 ctx2 ctx3 : Context)
    (K : String) (V1 V2 : List Byte) (w : World Store)
    (h1 : ((Firestore.over (contextAware (mapClient svc)) n).Put ctx1 K V1 w).1 = none)
    (h2 : ((Firestore.over (contextAware (mapClient svc)) n).Put ctx2 K V2
      ((Firestore.over (contextAware (mapClient svc)) n).Put ctx1 K V1 w).2).1 = none) :
    ((Firestore.over (contextAware (mapClient svc)) n).Get ctx3 K
      ((Firestore.over (contextAware (mapClient svc)) n).Put ctx2 K V2
        ((Firestore.over (contextAware (mapClient svc)) n).Put ctx1 K V1 w).2).2).1 =
      (V2, none) ∧
    ((Firestore.over (contextAware (mapClient svc)) n).Put ctx2 K V2
      ((Firestore.over (contextAware (mapClient svc)) n).Put ctx1 K V1 w).2).2.remote n K =
        some [("data", Value.str (GoString.ofBytes V2))] := by
  rw [over_contextAware_Put] at h1
  rw [over_contextAware_Put, over_contextAware_Put] at h2
  rw [over_contextAware_Get, over_contextAware_Put, over_contextAware_Put]
  obtain ⟨⟨hpath, hname⟩, _⟩ := mapClient_Put_success svc n _ ctx1 K V1 w h1
  obtain ⟨_, hs⟩ := mapClient_Put_success svc n _ ctx2 K V2 _ h2
  have hdoc : ((⟨n, Context.Background, mapClient svc⟩ : Firestore Store).Put ctx2 K V2
      ((⟨n, Context.Background, mapClient svc⟩ : Firestore Store).Put ctx1 K V1 w).2).2.remote
        n K = some [("data", Value.str ⟨V2⟩)] := by
    rw [hs, Store.update_same]
  refine ⟨?_, hdoc⟩
  rw [mapClient_Get_present svc n _ ctx3 K _ _ hpath hname hdoc]
  rfl

/-- C7, at the values 1 2 and 3 4 5 under the key "example.com", on a store that holds a
document of other fields under that key. -/
theorem Firestore_Put_overwrites_witness :
    ((Firestore.over (contextAware (mapClient Service.documented)) "certcache").Put
        Context.Background "example.com" [1, 2] (World.start Store.malformed)).1 = none ∧
    ((Firestore.over (contextAware (mapClient Service.documented)) "certcache").Put
        Context.Background "example.com" [3, 4, 5]
        ((Firestore.over (contextAware (mapClient Service.documented)) "certcache").Put
          Context.Background "example.com" [1, 2] (World.start Store.malformed)).2).1 = none ∧
    ((Firestore.over (contextAware (mapClient Service.documented)) "certcache").Get
        Context.Background "example.com"
        ((Firestore.over (contextAware (mapClient Service.documented)) "certcache").Put
          Context.Background "example.com" [3, 4, 5]
          ((Firestore.over (contextAware (mapClient Service.documented)) "certcache").Put
            Context.Background "example.com" [1, 2] (World.start Store.malformed)).2).2).1 =
      ([3, 4, 5], none) ∧
    ((Firestore.over (contextAware (mapClient Service.documented)) "certcache").Put
        Context.Background "example.com" [3, 4, 5]
        ((Firestore.over (contextAware (mapClient Service.documented)) "certcache").Put
          Context.Background "example.com" [1, 2]
          (World.start Store.malformed)).2).2.remote "certcache" "example.com" =
      some [("data", Value.str (GoString.ofBytes [3, 4, 5]))] :=
  ⟨rfl, rfl,
    Firestore_Put_overwrites Service.documented "certcache" Context.Background
      Context.Background Context.Background "example.com" [1, 2] [3, 4, 5]
      (World.start Store.malformed) rfl rfl⟩

/-! ## The Firestore backend on any client: errors -/

/-- C4: for every client, key and error `e` the fetch fails with, if the status code of `e` is
`NotFound` then `Get` returns no value and `autocert.ErrCacheMiss`, whatever the message of `e`
and whatever else `e` is. -/
theorem Firestore_Get_NotFound_is_cacheMiss {σ : Type} (fcc : Firestore σ) (ctx : Context)
    (key : String) (w : World σ) (e : GoError) (r : σ)
    (hfetch : fcc.client.get ⟨fcc.collectionName, key⟩ fcc.ctxt w.remote = (.error e, r))
    (hcode : grpcCode e = Code.NotFound) :
    (fcc.Get ctx key w).1 = ([], some GoError.ErrCacheMiss) := by
  rw [Get_of_fetch_error fcc ctx key w e r hfetch]
  simp [hcode]

/-- C4, at a client whose fetch fails with a `NotFound` status of some message. -/
theorem Firestore_Get_NotFound_is_cacheMiss_witness :
    (failingClient (.status .NotFound "no such document")).get ⟨"certcache", "example.com"⟩
        Context.Background () = (.error (.status .NotFound "no such document"), ()) ∧
      grpcCode (.status .NotFound "no such document") = Code.NotFound ∧
      ((Firestore.over (failingClient (.status .NotFound "no such document")) "certcache").Get
        Context.Background "example.com" (World.start ())).1 = ([], some GoError.ErrCacheMiss) :=
  ⟨rfl, rfl,
    Firestore_Get_NotFound_is_cacheMiss
      (Firestore.over (failingClient (.status .NotFound "no such document")) "certcache")
      Context.Background "example.com" (World.start ()) _ () rfl rfl⟩

/-- C5: for every client and every error `e`: when the fetch fails with `e` and the status code
of `e` is not `NotFound`, `Get` returns no value and `e`; when the fetch succeeds and decoding the
document fails with `e`, `Get` returns no value and `e`; when the set fails with `e`, `Put`
returns `e`; when the delete fails with `e`, `Delete` returns `e`. -/
theorem Firestore_errors_pass_through {σ : Type} (fcc : Firestore σ) (ctx : Context)
    (key : String) (data : List Byte) (w : World σ) (e : GoError) (r : σ) :
    (fcc.client.get ⟨fcc.collectionName, key⟩ fcc.ctxt w.remote = (.error e, r) →
      grpcCode e ≠ Code.NotFound → (fcc.Get ctx key w).1 = ([], some e)) ∧
    (∀ d, fcc.client.get ⟨fcc.collectionName, key⟩ fcc.ctxt w.remote = (.ok d, r) →
      DataTo d = .error e → (fcc.Get ctx key w).1 = ([], some e)) ∧
    (fcc.client.set ⟨fcc.collectionName, key⟩ fcc.ctxt ⟨GoString.ofBytes data⟩ w.remote =
        (some e, r) → (fcc.Put ctx key data w).1 = some e) ∧
    (fcc.client.delete ⟨fcc.collectionName, key⟩ fcc.ctxt w.remote = (some e, r) →
      (fcc.Delete ctx key w).1 = some e) := by
  refine ⟨?_, ?_, ?_, ?_⟩
  · intro hfetch hcode
    rw [Get_of_fetch_error fcc ctx key w e r hfetch]
    simp [hcode]
  · intro d hfetch hdec
    rw [(Get_of_fetch_ok fcc ctx key w d r hfetch).1, hdec]
  · intro hset
    exact (Put_of_set fcc ctx key data w (some e) r hset).1
  · intro hdel
    rw [Delete_eq, hdel]

/-- C5, at a client every request of which fails with status `Unavailable`, and at a document
that does not decode. -/
theorem Firestore_errors_pass_through_witness :
    ((Firestore.over (failingClient (.status .Unavailable "connection refused")) "certcache").Get
        Context.Background "example.com" (World.start ())).1 =
      ([], some (.status .Unavailable "connection refused")) ∧
    ((Firestore.over (mapClient Service.documented) "certcache").Get Context.Background
        "example.com" (World.start Store.malformed)).1 =
      ([], some (.other "firestore: cannot set type string to int")) ∧
    ((Firestore.over (failingClient (.status .Unavailable "connection refused")) "certcache").Put
        Context.Background "example.com" [1, 2] (World.start ())).1 =
      some (.status .Unavailable "connection refused") ∧
    ((Firestore.over (failingClient (.status .Unavailable "connection refused"))
        "certcache").Delete Context.Background "example.com" (World.start ())).1 =
      some (.status .Unavailable "connection refused") :=
  ⟨(Firestore_errors_pass_through
      (Firestore.over (failingClient (.status .Unavailable "connection refused")) "certcache")
      Context.Background "example.com" [1, 2] (World.start ())
      (.status .Unavailable "connection refused") ()).1 rfl (by decide),
    (Firestore_errors_pass_through (Firestore.over (mapClient Service.documented) "certcache")
      Context.Background "example.com" [1, 2] (World.start Store.malformed)
      (.other "firestore: cannot set type string to int") Store.malformed).2.1
      [("data", Value.int 7), ("owner", Value.bool true)] rfl rfl,
    (Firestore_errors_pass_through
      (Firestore.over (failingClient (.status .Unavailable "connection refused")) "certcache")
      Context.Background "example.com" [1, 2] (World.start ())
      (.status .Unavailable "connection refused") ()).2.2.1 rfl,
    (Firestore_errors_pass_through
      (Firestore.over (failingClient (.status .Unavailable "connection refused")) "certcache")
      Context.Background "example.com" [1, 2] (World.start ())
      (.status .Unavailable "connection refused") ()).2.2.2 rfl⟩

/-! ## The Firestore backend: contexts and collections -/

/-- C8, refuted: on the backend `NewFirestoreWithCollection` builds over a client that fails
with a cancellation error exactly when the context it receives is cancelled, called with a context
that is already cancelled: `Put` succeeds and writes the document, `Get` then returns the value,
and `Delete` succeeds and removes the document; called with a context past its deadline, `Put`
succeeds. -/
theorem Firestore_cancelled_ctx_counterexample :
    Context.cancelled.err = some CtxErr.Canceled ∧
    NewFirestoreWithCollection (fun _ _ _ => .ok (contextAware (mapClient Service.documented))) "creds.json"
        "project" "certcache" = .ok (Firestore.over (contextAware (mapClient Service.documented)) "certcache") ∧
    (NewFirestoreWithCollection (fun _ _ _ => .ok (contextAware (mapClient Service.documented))) "creds.json"
        "project" "certcache").map
      (fun fcc => (fcc.Put Context.cancelled "example.com" [1, 2] (World.start Store.empty)).1) =
      .ok none ∧
    (NewFirestoreWithCollection (fun _ _ _ => .ok (contextAware (mapClient Service.documented))) "creds.json"
        "project" "certcache").map
      (fun fcc => (fcc.Put Context.cancelled "example.com" [1, 2]
        (World.start Store.empty)).2.remote "certcache" "example.com") =
      .ok (some [("data", Value.str ⟨[1, 2]⟩)]) ∧
    (NewFirestoreWithCollection (fun _ _ _ => .ok (contextAware (mapClient Service.documented))) "creds.json"
        "project" "certcache").map
      (fun fcc => (fcc.Get Context.cancelled "example.com"
        (fcc.Put Context.cancelled "example.com" [1, 2] (World.start Store.empty)).2).1) =
      .ok ([1, 2], none) ∧
    (NewFirestoreWithCollection (fun _ _ _ => .ok (contextAware (mapClient Service.documented))) "creds.json"
        "project" "certcache").map
      (fun fcc => (fcc.Delete Context.cancelled "example.com"
        (fcc.Put Context.cancelled "example.com" [1, 2] (World.start Store.empty)).2).1) =
      .ok none ∧
    (NewFirestoreWithCollection (fun _ _ _ => .ok (contextAware (mapClient Service.documented))) "creds.json"
        "project" "certcache").map
      (fun fcc => (fcc.Delete Context.cancelled "example.com"
        (fcc.Put Context.cancelled "example.com" [1, 2]
          (World.start Store.empty)).2).2.remote "certcache" "example.com") =
      .ok none ∧
    Context.expired.err = some CtxErr.DeadlineExceeded ∧
    (NewFirestoreWithCollection (fun _ _ _ => .ok (contextAware (mapClient Service.documented))) "creds.json"
        "project" "certcache").map
      (fun fcc => (fcc.Put Context.expired "example.com" [1, 2] (World.start Store.empty)).1) =
      .ok none :=
  ⟨rfl, rfl, rfl, rfl, rfl, rfl, rfl, rfl, rfl⟩

/-- C8, amended: `Get`, `Put` and `Delete` make their request under the context stored in the
backend, not under the context of the caller.  Their result and effect are the same for any two
caller contexts; a recording client sees the stored context in each request; over a client that
fails with a cancellation error exactly when the context it receives is cancelled, each fails
with the error of the stored context when that one is cancelled and otherwise does what it does
over the client underneath, so that over the map client each fails with a cancellation error
exactly when the stored context is cancelled; the constructors store `context.Background()`, so a
backend they build makes the request of the client underneath whatever the context of the
caller. -/
theorem Firestore_request_context {σ : Type} (inner : Client σ) (n : String)
    (c ctx ctx2 : Context) (key : String) (data : List Byte) (w : World σ)
    (v : World (σ × List Request)) (u : World Store) (credsPath projectID : String) :
    (∀ fcc : Firestore σ, fcc.Get ctx key w = fcc.Get ctx2 key w ∧
      fcc.Put ctx key data w = fcc.Put ctx2 key data w ∧
      fcc.Delete ctx key w = fcc.Delete ctx2 key w) ∧
    (((⟨n, c, recording inner⟩ : Firestore _).Get ctx key v).2.remote.2 =
        v.remote.2 ++ [Request.get ⟨n, key⟩ c] ∧
      ((⟨n, c, recording inner⟩ : Firestore _).Put ctx key data v).2.remote.2 =
        v.remote.2 ++ [Request.set ⟨n, key⟩ c ⟨GoString.ofBytes data⟩] ∧
      ((⟨n, c, recording inner⟩ : Firestore _).Delete ctx key v).2.remote.2 =
        v.remote.2 ++ [Request.delete ⟨n, key⟩ c]) ∧
    (((⟨n, c, contextAware inner⟩ : Firestore σ).Get ctx key w).1 =
        (match c.err with
          | some e => ([], some (GoError.ctx e))
          | none => ((⟨n, c, inner⟩ : Firestore σ).Get ctx key w).1) ∧
      ((⟨n, c, contextAware inner⟩ : Firestore σ).Put ctx key data w).1 =
        (match c.err with
          | some e => some (GoError.ctx e)
          | none => ((⟨n, c, inner⟩ : Firestore σ).Put ctx key data w).1) ∧
      ((⟨n, c, contextAware inner⟩ : Firestore σ).Delete ctx key w).1 =
        (match c.err with
          | some e => some (GoError.ctx e)
          | none => ((⟨n, c, inner⟩ : Firestore σ).Delete ctx key w).1)) ∧
    (((⟨n, c, contextAware (mapClient Service.documented)⟩ : Firestore Store).Get ctx key u).1.2.any
        GoError.isCancellation = c.err.isSome ∧
      ((⟨n, c, contextAware (mapClient Service.documented)⟩ : Firestore Store).Put ctx key data u).1.any
        GoError.isCancellation = c.err.isSome ∧
      ((⟨n, c, contextAware (mapClient Service.documented)⟩ : Firestore Store).Delete ctx key u).1.any
        GoError.isCancellation = c.err.isSome) ∧
    (NewFirestoreWithCollection (fun _ _ _ => .ok (contextAware inner)) credsPath projectID n).map
        Firestore.ctxt = .ok Context.Background ∧
    ((Firestore.over (contextAware inner) n).Get ctx key w = (Firestore.over inner n).Get ctx key w ∧
      (Firestore.over (contextAware inner) n).Put ctx key data w =
        (Firestore.over inner n).Put ctx key data w ∧
      (Firestore.over (contextAware inner) n).Delete ctx key w =
        (Firestore.over inner n).Delete ctx key w) := by
  refine ⟨fun fcc => ⟨rfl, rfl, rfl⟩, ⟨?_, ?_, rfl⟩,
    ⟨contextAware_Get inner n c ctx key w, contextAware_Put inner n c ctx key data w,
      contextAware_Delete inner n c ctx key w⟩, ⟨?_, ?_, ?_⟩, rfl, ⟨rfl, rfl, rfl⟩⟩
  · rw [Get_remote]; rfl
  · rw [Put_remote]; rfl
  · rw [contextAware_Get (mapClient Service.documented) n c ctx key u]
    cases hc : c.err with
    | none => exact mapClient_Get_not_cancellation n c ctx key u
    | some e => rfl
  · rw [contextAware_Put (mapClient Service.documented) n c ctx key data u]
    cases hc : c.err with
    | none => exact mapClient_Put_not_cancellation n c ctx key data u
    | some e => rfl
  · rw [contextAware_Delete (mapClient Service.documented) n c ctx key u]
    cases hc : c.err with
    | none => exact mapClient_Delete_not_cancellation n c ctx key u
    | some e => rfl

/-- C10: `NewFirestore c p` is `NewFirestoreWithCollection c p "certcache"`, so the backend it
returns has collection name "certcache"; the backend `NewFirestoreWithCollection c p n` returns
has collection name `n`; and each of `Get`, `Put` and `Delete` on a backend of collection name `n`
makes one request, for the document `key` of the collection `n`. -/
theorem NewFirestore_collection {σ : Type}
    (NewClient : Context → String → ClientOption → Except GoError (Client σ))
    (c p n : String) (inner : Client σ) (ctxt ctx : Context) (key : String) (data : List Byte)
    (v : World (σ × List Request)) :
    NewFirestore NewClient c p = NewFirestoreWithCollection NewClient c p "certcache" ∧
    (∀ fcc, NewFirestore NewClient c p = .ok fcc → fcc.collectionName = "certcache") ∧
    (∀ fcc, NewFirestoreWithCollection NewClient c p n = .ok fcc → fcc.collectionName = n) ∧
    ((⟨n, ctxt, recording inner⟩ : Firestore _).Get ctx key v).2.remote.2 =
      v.remote.2 ++ [Request.get ⟨n, key⟩ ctxt] ∧
    ((⟨n, ctxt, recording inner⟩ : Firestore _).Put ctx key data v).2.remote.2 =
      v.remote.2 ++ [Request.set ⟨n, key⟩ ctxt ⟨GoString.ofBytes data⟩] ∧
    ((⟨n, ctxt, recording inner⟩ : Firestore _).Delete ctx key v).2.remote.2 =
      v.remote.2 ++ [Request.delete ⟨n, key⟩ ctxt] := by
  have hname : ∀ (m : String) (fcc : Firestore σ),
      NewFirestoreWithCollection NewClient c p m = .ok fcc → fcc.collectionName = m := by
    intro m fcc h
    unfold NewFirestoreWithCollection at h
    cases hcl : NewClient Context.Background p ⟨c⟩ with
    | error err => simp [hcl] at h
    | ok cl =>
      simp only [hcl] at h
      cases h
      rfl
  refine ⟨rfl, fun fcc h => hname _ fcc h, hname n, ?_, ?_, rfl⟩
  · rw [Get_remote]; rfl
  · rw [Put_remote]; rfl

/-- C10, at a client library that hands out the client of a map store. -/
theorem NewFirestore_collection_witness :
    NewFirestore (fun _ _ _ => .ok (mapClient Service.documented)) "creds.json" "project" =
        .ok (Firestore.over (mapClient Service.documented) "certcache") ∧
      (Firestore.over (mapClient Service.documented) "certcache").collectionName = "certcache" ∧
      NewFirestoreWithCollection (fun _ _ _ => .ok (mapClient Service.documented)) "creds.json" "project"
        "testcerts" = .ok (Firestore.over (mapClient Service.documented) "testcerts") ∧
      (Firestore.over (mapClient Service.documented) "testcerts").collectionName = "testcerts" :=
  ⟨rfl,
    (NewFirestore_collection (fun _ _ _ => .ok (mapClient Service.documented)) "creds.json" "project" "testcerts"
      (mapClient Service.documented) Context.Background Context.Background "example.com" []
      (World.start (Store.empty, []))).2.1 (Firestore.over (mapClient Service.documented) "certcache") rfl,
    rfl,
    (NewFirestore_collection (fun _ _ _ => .ok (mapClient Service.documented)) "creds.json" "project" "testcerts"
      (mapClient Service.documented) Context.Background Context.Background "example.com" []
      (World.start (Store.empty, []))).2.2.1 (Firestore.over (mapClient Service.documented) "testcerts") rfl⟩

end certcache
